import Mathlib

/-!
Verification development for the out-of-core cube assembly and quality-gating
engine of cube_buildcube.py.

Floating-point values are modelled as rationals, with an explicit marker for
not-a-number: EF is Option rational, where none stands for NaN.  All
arithmetic propagates NaN the way IEEE operations do on the code paths the
program exercises (no infinities arise with rational inputs).  2D numpy
arrays are lists of rows of EF values.
-/

namespace Frocc

/-- A floating-point value: some q is a finite value, none is NaN. -/
abbrev EF := Option ℚ

/-- Addition with NaN propagation (models numpy elementwise and np.sum folds). -/
def efAdd : EF → EF → EF
  | some a, some b => some (a + b)
  | _, _ => none

/-- Multiplication of a finite scalar with a possibly-NaN value. -/
def efMul (c : ℚ) : EF → EF
  | some a => some (c * a)
  | none => none

/-- Absolute deviation |x - med| with NaN propagation. -/
def efAbsSub (med x : EF) : EF :=
  match x, med with
  | some a, some m => some |a - m|
  | _, _ => none

/-- np.sum over a flat list: any NaN poisons the result. -/
def npsum (l : List EF) : EF := l.foldl efAdd (some 0)

/-- Whether a flat list holds at least one NaN entry. -/
def containsNaN (l : List EF) : Bool := l.any (fun x => x = none)

/-- Flatten a 2D array (row-major), as numpy does for axis=None reductions. -/
def flat (a : List (List EF)) : List EF := a.flatten

/-- Ascending sort of the finite values (the order statistics behind a median). -/
def sortQ (l : List ℚ) : List ℚ := l.insertionSort (fun a b => a ≤ b)

/-- Median of an already sorted list of finite values: the middle element for
odd length, the mean of the two middle elements for even length, NaN for the
empty list (numpy returns NaN for an empty nanmedian reduction). -/
def medianOfSorted (l : List ℚ) : EF :=
  if l.length = 0 then none
  else if l.length % 2 = 1 then l.get? (l.length / 2)
  else
    match l.get? (l.length / 2 - 1), l.get? (l.length / 2) with
    | some a, some b => some ((a + b) / 2)
    | _, _ => none

/-- np.nanmedian over a flat list: drop the NaN entries, then take the median;
if every entry was NaN the result is NaN. -/
def nanmedianList (l : List EF) : EF := medianOfSorted (sortQ (l.filterMap id))

/-- get_mad of cube_buildcube.py (lines 155-176), called with axis=None as
get_std_via_mad does: med = np.nanmedian(a), mad = np.nanmedian(|a - med|). -/
def get_mad (a : List (List EF)) : EF :=
  nanmedianList ((flat a).map (efAbsSub (nanmedianList (flat a))))

/-- The MAD-to-standard-deviation scale factor 1.4826 of line 196. -/
def madScale : ℚ := 14826 / 10000

/-- get_std_via_mad of cube_buildcube.py (lines 179-199): 1.4826 * MAD. -/
def get_std_via_mad (a : List (List EF)) : EF := efMul madScale (get_mad a)

/-- The comparison std < 1e6 of line 221; any comparison with NaN is false. -/
def qualityGateFlag (std : EF) : Bool :=
  match std with
  | some s => decide (s < 1000000)
  | none => false

/-- check_rms of cube_buildcube.py (lines 202-224): if std < 1e6 both the
array and std are replaced by NaN (the scalar NaN is modelled as none in the
first component), else both pass through. -/
def check_rms (a : List (List EF)) : Option (List (List EF)) × EF :=
  let std := get_std_via_mad a
  if qualityGateFlag std then (none, none) else (some a, std)

/-- The fixed Stokes axis length of line 117. -/
def wdim : ℕ := 4

/-- np.product(dims) * itemsize(float32) of line 142: x*y*z*4 elements, 4
bytes each. -/
def dataByteSize (x y z : ℕ) : ℕ := x * y * z * wdim * 4

/-- Line 146: data_size = block_size * ((data_size // block_size) + 1), with
block_size = 2880 and Python integer floor division. -/
def paddedDataSize (x y z : ℕ) : ℕ := 2880 * (dataByteSize x y z / 2880 + 1)

/-- The byte size the allocated file ends at: header plus padded data region. -/
def totalFileByteSize (hs x y z : ℕ) : ℕ := hs + paddedDataSize x y z

/-- Modelled from the spec: the invariant of section 3 claims the data region
is padded with ceil(dataByteSize / blockSize) * blockSize; stated here for
comparison with the size the code computes. -/
def claimedTotalFileByteSize (hs x y z : ℕ) : ℕ :=
  hs + (dataByteSize x y z + 2879) / 2880 * 2880

/-- The size of a file after seeking to position pos and writing one byte
(lines 150-152): the file grows exactly to pos+1 if it was shorter. -/
def seekWriteSize (cur pos : ℕ) : ℕ := max cur (pos + 1)

/-- File size on disk after make_empty_image allocates: the header was written
first (hs bytes), then the code seeks to header_size + data_size - 1 and
writes a single zero byte. -/
def fileSizeAfterAllocate (hs x y z : ℕ) : ℕ :=
  seekWriteSize hs (hs + paddedDataSize x y z - 1)

/-- A FITS header card value: an integer, a string, or a (value, comment)
pair as in header["CTYPE3"] = ("FREQ", ""). -/
inductive HVal
  | intV (n : ℤ)
  | strV (s : String)
  | pairV (s t : String)
deriving DecidableEq

/-- A header is a total map from keyword to card value; assignment updates
one keyword pointwise. -/
def Header := String → HVal

/-- header[k] = v. -/
def hset (h : Header) (k : String) (v : HVal) : Header :=
  fun q => if q = k then v else h q

/-- The header writes of make_empty_image (lines 120-131) applied to the
reference channel file's header (get_and_add_custom_header, lines 63-88,
re-reads the header from the lowest channel file and sets OBJECT, NAXIS3 and
CTYPE3; back in make_empty_image the loop over dims = (xdim, ydim, zdim, 4)
then assigns NAXIS1..NAXIS4). -/
def buildCubeHeader (template : Header) (fieldnames : String)
    (xdim ydim zdim : ℕ) : Header :=
  let h := hset template "OBJECT" (HVal.strV fieldnames)
  let h := hset h "NAXIS3" (HVal.intV zdim)
  let h := hset h "CTYPE3" (HVal.pairV "FREQ" "")
  let h := hset h "NAXIS1" (HVal.intV xdim)
  let h := hset h "NAXIS2" (HVal.intV ydim)
  let h := hset h "NAXIS3" (HVal.intV zdim)
  hset h "NAXIS4" (HVal.intV wdim)

/-- Lexicographic less-or-equal on character lists by code point, the order
Python string comparison uses. -/
def fnLeb : List Char → List Char → Bool
  | [], _ => true
  | _ :: _, [] => false
  | a :: as, b :: bs =>
    if a.toNat < b.toNat then true
    else if b.toNat < a.toNat then false
    else fnLeb as bs

/-- Lexicographic less-or-equal on filenames. -/
def strLe (a b : String) : Prop := fnLeb a.data b.data = true

instance : DecidableRel strLe := fun a b => instDecidableEqBool (fnLeb a.data b.data) true

/-- Python sorted() over filenames: ascending lexicographic sort. -/
def sortStrings (l : List String) : List String :=
  l.insertionSort strLe

/-- The inputs make_empty_image draws on: the globbed (unsorted) file list,
the channel-number extractor (get_channelNumber_from_filename composed with
int, an external helper taken as a parameter), the configured field names,
and the spatial dimensions read from the reference file's data. -/
structure BuildConf where
  files : List String
  extract : String → ℕ
  fieldnames : String
  template : Header
  xdim : ℕ
  ydim : ℕ

/-- channelFitsfileList = sorted(glob(...)) of line 99. -/
def sortedFiles (conf : BuildConf) : List String := sortStrings conf.files

/-- Line 113: zdim is the channel number parsed from the last (highest)
entry of the sorted file list. -/
def zdimOf (conf : BuildConf) : ℕ :=
  conf.extract ((sortedFiles conf).getLastD "")

/-- The cube header make_empty_image writes to disk. -/
def cubeHeaderOf (conf : BuildConf) : Header :=
  buildCubeHeader conf.template conf.fieldnames conf.xdim conf.ydim (zdimOf conf)

/-- A sample reference header for concrete evaluations: NAXIS4 holds 1,
every other keyword holds 0. -/
def sampleTemplate : Header :=
  fun k => if k = "NAXIS4" then HVal.intV 1 else HVal.intV 0

/-- A sample two-file build configuration for concrete evaluations. -/
def confW : BuildConf :=
  { files := ["b.image.fits", "a.image.fits"],
    extract := fun s => if s = "b.image.fits" then 2 else 1,
    fieldnames := "F",
    template := sampleTemplate,
    xdim := 7,
    ydim := 9 }

/-- The contents of one (stokes, channel) slab of the cube: never written,
filled with the scalar NaN, or holding a copied 2D array. -/
inductive SlabVal
  | untouched
  | nanFill
  | arr (a : List (List EF))
deriving DecidableEq

/-- The cube data as a map from (stokes index, channel index) to slab value. -/
def CubeData := ℕ × ℕ → SlabVal

/-- dataCube[s, idx, :, :] = v. -/
def writeSlab (cube : CubeData) (s idx : ℕ) (v : SlabVal) : CubeData :=
  fun k => if k = (s, idx) then v else cube k

/-- One discovered channel file as the fill loop sees it: its 0-based index
(line 302), whether fits.open succeeds (the try of line 311), the CRVAL3
frequency of its header, its four polarization planes, and whether the
in-try write of the Stokes V slab (line 317) succeeds or raises an I/O
error. -/
structure ChanInput where
  idx : ℕ
  canOpen : Bool
  freq : ℚ
  stokesI : List (List EF)
  stokesQ : List (List EF)
  stokesU : List (List EF)
  stokesV : List (List EF)
  writeVOk : Bool

/-- The mutable state the fill loop threads: the rmsDict lists (lines
294-299) and the cube data. -/
structure RunState where
  chanNo : List ℕ
  freq : List ℚ
  rmsI : List EF
  rmsV : List EF
  maxI : List EF
  cube : CubeData

/-- The empty rmsDict and the untouched cube. -/
def initState : RunState :=
  { chanNo := [], freq := [], rmsI := [], rmsV := [], maxI := [],
    cube := fun _ => SlabVal.untouched }

/-- np.max over the flattened plane: NaN if any entry is NaN, else the
greatest entry (NaN for an empty plane, a case the loop never meets). -/
def npmax (l : List EF) : EF :=
  match l with
  | [] => none
  | x :: xs => xs.foldl (fun acc y =>
      match acc, y with
      | some a, some b => some (max a b)
      | _, _ => none) x

/-- The checked array returned by check_rms as a slab value: the scalar NaN
broadcasts to a NaN-filled slab, an array is stored as such. -/
def slabOfChecked : Option (List (List EF)) → SlabVal
  | none => SlabVal.nanFill
  | some a => SlabVal.arr a

/-- np.isnan(np.sum(checkedArray)) of line 318: true for the scalar NaN,
and for an array exactly when it holds a NaN entry. -/
def checkedIsNaNSum : Option (List (List EF)) → Bool
  | none => true
  | some a => decide (npsum (flat a) = none)

/-- The stokesVflag computed at line 318 for a channel whose file opened:
np.isnan(np.sum(checkedArray)) or std == 0 (a comparison of NaN with 0 is
false). -/
def stokesVflagOf (v : List (List EF)) : Bool :=
  let r := check_rms v
  checkedIsNaNSum r.1 || decide (r.2 = some 0)

/-- The branch of lines 339-349: all four slabs of the channel written as
NaN, undefined Stokes I noise and peak appended to the ledger. -/
def flagBranch (st : RunState) (c : ChanInput) : RunState :=
  let cube := writeSlab st.cube 0 c.idx SlabVal.nanFill
  let cube := writeSlab cube 1 c.idx SlabVal.nanFill
  let cube := writeSlab cube 2 c.idx SlabVal.nanFill
  let cube := writeSlab cube 3 c.idx SlabVal.nanFill
  { st with cube := cube,
            rmsI := st.rmsI ++ [none],
            maxI := st.maxI ++ [none] }

/-- The branch of lines 326-337: Stokes I noise and peak computed and
appended, Stokes I, Q, U slabs copied from the source file. -/
def acceptBranch (st : RunState) (c : ChanInput) : RunState :=
  let cube := writeSlab st.cube 0 c.idx (SlabVal.arr c.stokesI)
  let cube := writeSlab cube 1 c.idx (SlabVal.arr c.stokesQ)
  let cube := writeSlab cube 2 c.idx (SlabVal.arr c.stokesU)
  { st with cube := cube,
            rmsI := st.rmsI ++ [get_std_via_mad c.stokesI],
            maxI := st.maxI ++ [npmax (flat c.stokesI)] }

/-- One iteration of the fill loop of fill_cube_with_images (lines 301-352).
The try block opens the file, appends CRVAL3 to freq, runs check_rms on the
Stokes V plane, appends std to rmsV, writes the checked Stokes V slab, and
computes stokesVflag; a failure anywhere in it - the open failing, or the
Stokes V slab write raising - lands in the bare except, which sets
stokesVflag and appends NaN to rmsV.  Afterwards the accept or flag branch
runs and the loop continues with the next channel. -/
def processChannel (st : RunState) (c : ChanInput) : RunState :=
  let st := { st with chanNo := st.chanNo ++ [c.idx] }
  if c.canOpen then
    let st := { st with freq := st.freq ++ [c.freq] }
    let r := check_rms c.stokesV
    let st := { st with rmsV := st.rmsV ++ [r.2] }
    if c.writeVOk then
      let st := { st with cube := writeSlab st.cube 3 c.idx (slabOfChecked r.1) }
      if stokesVflagOf c.stokesV then flagBranch st c else acceptBranch st c
    else
      flagBranch { st with rmsV := st.rmsV ++ [none] } c
  else
    flagBranch { st with rmsV := st.rmsV ++ [none] } c

/-- The whole fill loop over the sorted channel file list. -/
def processAll (cs : List ChanInput) : RunState :=
  cs.foldl processChannel initState

/-- One row of the statistics table: channel number, frequency in MHz,
Stokes I rms, Stokes V rms and Stokes I peak in microJansky per beam. -/
abbrev StatsRow := ℕ × ℚ × EF × EF × EF

/-- Python round(x, 4) modelled on rationals: round to 4 decimal places
(ties rounded up rather than to even; no property here sits on a tie). -/
def round4 (q : ℚ) : ℚ := (round (q * 10000) : ℤ) / 10000

/-- Scale a possibly-NaN value by 1e6 and round to 4 places; NaN stays NaN. -/
def scaleRound (x : EF) : EF :=
  match x with
  | some q => some (round4 (q * 1000000))
  | none => none

/-- One iteration of the writer loop of write_statistics_file (lines
242-248): every column list is indexed at the same position ii; an
out-of-range index is Python's IndexError, modelled as none. -/
def statsRow (st : RunState) (ii : ℕ) : Option StatsRow :=
  match st.chanNo.get? ii, st.freq.get? ii, st.rmsI.get? ii,
        st.rmsV.get? ii, st.maxI.get? ii with
  | some c, some f, some i, some v, some m =>
      some (c, round4 (f * (1 / 1000000)), scaleRound i, scaleRound v, scaleRound m)
  | _, _, _, _, _ => none

/-- The writer loop of write_statistics_file accumulating the first n rows
in order; none as soon as any row raises an IndexError. -/
def collectRows (st : RunState) : ℕ → Option (List StatsRow)
  | 0 => some []
  | n + 1 =>
    match collectRows st n, statsRow st n with
    | some rows, some row => some (rows ++ [row])
    | _, _ => none

/-- write_statistics_file (lines 227-249): one row per entry of rmsI, built
before anything is written; the whole table is none when any row raises (the
exception aborts the writer and the statistics file is left without its
data). -/
def writeStatistics (st : RunState) : Option (List StatsRow) :=
  collectRows st st.rmsI.length

/-- The stokesVflag switch a channel ends up with: set in the except branch
when the file cannot be opened, otherwise computed at line 318. -/
def chanFlagged (c : ChanInput) : Bool :=
  if c.canOpen then stokesVflagOf c.stokesV else true

/-- The run state after processing a single channel from a fresh state. -/
def chanResult (c : ChanInput) : RunState := processChannel initState c

/-- A sample 2D plane with noise estimate 1.4826e6, above the gate. -/
def vTwo : List (List EF) := [[some 0, some 2000000]]

/-- A sample constant plane with noise estimate 0, below the gate. -/
def vConst : List (List EF) := [[some 5]]

/-- A channel whose Stokes V noise estimate is 0: gate flags it. -/
def cFlagW : ChanInput :=
  { idx := 2, canOpen := true, freq := 10, stokesI := [[some 1]],
    stokesQ := [[some 1]], stokesU := [[some 1]], stokesV := vConst,
    writeVOk := true }

/-- A channel the gate accepts. -/
def cAccW : ChanInput :=
  { idx := 0, canOpen := true, freq := 1400000000, stokesI := vTwo,
    stokesQ := vTwo, stokesU := vTwo, stokesV := vTwo, writeVOk := true }

/-- A channel whose Stokes V plane holds a NaN but whose noise estimate is
above the gate threshold. -/
def cNanW : ChanInput :=
  { idx := 1, canOpen := true, freq := 20,
    stokesI := [[some 1]], stokesQ := [[some 1]], stokesU := [[some 1]],
    stokesV := [[none, some 0, some 4000000]], writeVOk := true }

/-- A channel that opens but whose Stokes V slab write raises an I/O error. -/
def cWriteFailW : ChanInput :=
  { idx := 0, canOpen := true, freq := 1000, stokesI := [[some 1]],
    stokesQ := [[some 1]], stokesU := [[some 1]], stokesV := vTwo,
    writeVOk := false }

/-- A clean, accepted channel following a failed one. -/
def cGoodW : ChanInput :=
  { idx := 1, canOpen := true, freq := 2000, stokesI := [[some 1]],
    stokesQ := [[some 1]], stokesU := [[some 1]], stokesV := vTwo,
    writeVOk := true }

/-- A channel whose source file is missing or unopenable. -/
def cMissW : ChanInput :=
  { idx := 0, canOpen := false, freq := 0, stokesI := [], stokesQ := [],
    stokesU := [], stokesV := [], writeVOk := true }

/-- An openable, accepted channel following the missing one. -/
def cOpenW : ChanInput :=
  { idx := 1, canOpen := true, freq := 1400000000, stokesI := vTwo,
    stokesQ := vTwo, stokesU := vTwo, stokesV := vTwo, writeVOk := true }

/-- Claim C2, counterexample: at x = y = 180, z = 1 the raw data byte size is
180*180*1*4*4 = 518400 = 180*2880, an exact multiple of the block size, and
the size the code computes is one 2880-byte block larger than the
ceil-padded size the claim states. -/
theorem c2_counterexample :
    totalFileByteSize 2880 180 180 1 ≠ claimedTotalFileByteSize 2880 180 180 1 := by
  decide

/-- Claim C2, amended: the total file byte size is headerByteSize plus
(floor(dataByteSize / 2880) + 1) * 2880; this agrees with the claimed
ceil(dataByteSize / 2880) * 2880 padding exactly when dataByteSize is not a
multiple of 2880, and adds one extra 2880-byte block when it is. -/
theorem c2_padding_formula (hs x y z : ℕ) :
    totalFileByteSize hs x y z = hs + (dataByteSize x y z / 2880 + 1) * 2880 ∧
    (¬ (2880 ∣ dataByteSize x y z) →
      totalFileByteSize hs x y z = hs + (dataByteSize x y z + 2879) / 2880 * 2880) ∧
    ((2880 ∣ dataByteSize x y z) →
      totalFileByteSize hs x y z = hs + dataByteSize x y z + 2880) := by
  simp only [totalFileByteSize, paddedDataSize]
  set d := dataByteSize x y z with hd
  refine ⟨by ring, fun h => ?_, fun h => ?_⟩
  · rw [Nat.dvd_iff_mod_eq_zero] at h
    omega
  · obtain ⟨k, hk⟩ := h
    rw [hk, Nat.mul_div_cancel_left k (by norm_num)]
    ring

/-- Claim C7: after allocation the file size on disk equals the computed
total file byte size exactly, and the data region (total minus header) is an
exact multiple of 2880 that is at least the raw data byte size
x * y * z * 4 * 4. -/
theorem c7_allocated_size (hs x y z : ℕ) :
    fileSizeAfterAllocate hs x y z = totalFileByteSize hs x y z ∧
    2880 ∣ (totalFileByteSize hs x y z - hs) ∧
    dataByteSize x y z ≤ totalFileByteSize hs x y z - hs := by
  have hpad : 1 ≤ paddedDataSize x y z := by
    simp only [paddedDataSize]
    have : 1 ≤ dataByteSize x y z / 2880 + 1 := Nat.le_add_left 1 _
    omega
  refine ⟨?_, ?_, ?_⟩
  · simp only [fileSizeAfterAllocate, seekWriteSize, totalFileByteSize]
    omega
  · simp only [totalFileByteSize, paddedDataSize, Nat.add_sub_cancel_left]
    exact Dvd.intro _ rfl
  · simp only [totalFileByteSize, paddedDataSize, Nat.add_sub_cancel_left]
    set d := dataByteSize x y z with hd
    omega

/-- Claim C4: the quality-gate decision on a Stokes V noise estimate is Flag
exactly when the estimate is below 1e6 and Accept otherwise; 0.5e6 is
flagged, 2e6 accepted, and the boundary 1e6 itself accepted; check_rms
replaces both array and estimate by NaN exactly on the Flag decision. -/
theorem c4_quality_gate (s : ℚ) :
    (qualityGateFlag (some s) = true ↔ s < 1000000) ∧
    qualityGateFlag (some 500000) = true ∧
    qualityGateFlag (some 2000000) = false ∧
    qualityGateFlag (some 1000000) = false ∧
    (∀ a : List (List EF), check_rms a =
      if qualityGateFlag (get_std_via_mad a) then (none, none)
      else (some a, get_std_via_mad a)) := by
  refine ⟨by simp [qualityGateFlag], by norm_num [qualityGateFlag],
    by norm_num [qualityGateFlag], by norm_num [qualityGateFlag], fun a => rfl⟩

theorem get?_replicate_of_lt {α : Type} (c : α) :
    ∀ n i, i < n → (List.replicate n c).get? i = some c
  | _ + 1, 0, _ => rfl
  | n + 1, i + 1, h => get?_replicate_of_lt c n i (Nat.lt_of_succ_lt_succ h)

theorem sortQ_replicate (c : ℚ) : ∀ n, sortQ (List.replicate n c) = List.replicate n c
  | 0 => rfl
  | n + 1 => by
    have ih := sortQ_replicate c n
    simp only [List.replicate, sortQ, List.insertionSort] at ih ⊢
    rw [ih]
    cases n with
    | zero => rfl
    | succ m => simp [List.orderedInsert, List.replicate]

theorem medianOfSorted_replicate (c : ℚ) (n : ℕ) (h : 0 < n) :
    medianOfSorted (List.replicate n c) = some c := by
  simp only [medianOfSorted, List.length_replicate]
  rw [if_neg (Nat.pos_iff_ne_zero.mp h)]
  by_cases hpar : n % 2 = 1
  · rw [if_pos hpar]
    exact get?_replicate_of_lt c n (n / 2) (Nat.div_lt_self h one_lt_two)
  · rw [if_neg hpar]
    have h2 : 2 ≤ n := by omega
    rw [get?_replicate_of_lt c n (n / 2 - 1) (by omega),
        get?_replicate_of_lt c n (n / 2) (Nat.div_lt_self h one_lt_two)]
    norm_num

theorem filterMap_id_all_some (c : ℚ) :
    ∀ l : List EF, (∀ x ∈ l, x = some c) →
      l.filterMap id = List.replicate l.length c
  | [], _ => rfl
  | x :: xs, h => by
    have hx : x = some c := h x (List.mem_cons_self x xs)
    have ih := filterMap_id_all_some c xs (fun y hy => h y (List.mem_cons_of_mem x hy))
    subst hx
    simp [List.filterMap_cons, ih, List.replicate]

theorem filterMap_id_all_none :
    ∀ l : List EF, (∀ x ∈ l, x = none) → l.filterMap id = []
  | [], _ => rfl
  | x :: xs, h => by
    have hx : x = none := h x (List.mem_cons_self x xs)
    have ih := filterMap_id_all_none xs (fun y hy => h y (List.mem_cons_of_mem x hy))
    subst hx
    simp [List.filterMap_cons, ih]

theorem nanmedianList_const (c : ℚ) (l : List EF)
    (hc : ∀ x ∈ l, x = some c) (hne : l ≠ []) : nanmedianList l = some c := by
  have hlen : 0 < l.length := List.length_pos.mpr hne
  simp only [nanmedianList, filterMap_id_all_some c l hc, sortQ_replicate]
  exact medianOfSorted_replicate c l.length hlen

theorem nanmedianList_all_nan (l : List EF) (hn : ∀ x ∈ l, x = none) :
    nanmedianList l = none := by
  simp only [nanmedianList, filterMap_id_all_none l hn]
  rfl

/-- Claim C5: the noise estimator returns 1.4826 times the NaN-ignoring
median of absolute deviations from the NaN-ignoring median; a constant
2D array yields 0, and an entirely-NaN 2D array yields NaN, never zero. -/
theorem c5_noise_estimator (a : List (List EF)) (c : ℚ) :
    get_std_via_mad a =
      efMul madScale
        (nanmedianList ((flat a).map (efAbsSub (nanmedianList (flat a))))) ∧
    ((∀ x ∈ flat a, x = some c) → flat a ≠ [] → get_std_via_mad a = some 0) ∧
    ((∀ x ∈ flat a, x = none) → get_std_via_mad a = none) := by
  refine ⟨rfl, fun hc hne => ?_, fun hn => ?_⟩
  · have hmed : nanmedianList (flat a) = some c := nanmedianList_const c (flat a) hc hne
    have hmap : ∀ y ∈ (flat a).map (efAbsSub (nanmedianList (flat a))), y = some 0 := by
      intro y hy
      obtain ⟨x, hx, rfl⟩ := List.mem_map.mp hy
      rw [hc x hx, hmed]
      simp [efAbsSub]
    have hnem : (flat a).map (efAbsSub (nanmedianList (flat a))) ≠ [] := by
      simpa using hne
    have : nanmedianList ((flat a).map (efAbsSub (nanmedianList (flat a)))) = some 0 :=
      nanmedianList_const 0 _ hmap hnem
    simp only [get_std_via_mad, get_mad, this, efMul, mul_zero]
  · have hmap : ∀ y ∈ (flat a).map (efAbsSub (nanmedianList (flat a))), y = none := by
      intro y hy
      obtain ⟨x, hx, rfl⟩ := List.mem_map.mp hy
      rw [hn x hx]
      simp [efAbsSub]
    have : nanmedianList ((flat a).map (efAbsSub (nanmedianList (flat a)))) = none :=
      nanmedianList_all_nan _ hmap
    simp only [get_std_via_mad, get_mad, this, efMul]

theorem fnLeb_refl : ∀ a, fnLeb a a = true
  | [] => rfl
  | a :: as => by simp [fnLeb, fnLeb_refl as]

theorem fnLeb_total : ∀ a b, fnLeb a b = true ∨ fnLeb b a = true
  | [], _ => Or.inl rfl
  | _ :: _, [] => Or.inr rfl
  | a :: as, b :: bs => by
    by_cases hab : a.toNat < b.toNat
    · left; simp [fnLeb, hab]
    · by_cases hba : b.toNat < a.toNat
      · right; simp [fnLeb, hba]
      · rcases fnLeb_total as bs with h | h
        · left; simp [fnLeb, hab, hba, h]
        · right; simp [fnLeb, hab, hba, h]

theorem fnLeb_trans : ∀ a b c, fnLeb a b = true → fnLeb b c = true → fnLeb a c = true
  | [], _, _ => by simp [fnLeb]
  | _ :: _, [], _ => by simp [fnLeb]
  | _ :: _, _ :: _, [] => by simp [fnLeb]
  | a :: as, b :: bs, c :: cs => by
    intro h1 h2
    simp only [fnLeb] at h1 h2 ⊢
    by_cases hab : a.toNat < b.toNat
    · by_cases hbc : b.toNat < c.toNat
      · rw [if_pos (show a.toNat < c.toNat by omega)]
      · by_cases hcb : c.toNat < b.toNat
        · rw [if_neg hbc, if_pos hcb] at h2
          exact absurd h2 (by simp)
        · rw [if_pos (show a.toNat < c.toNat by omega)]
    · by_cases hba : b.toNat < a.toNat
      · rw [if_neg hab, if_pos hba] at h1
        exact absurd h1 (by simp)
      · rw [if_neg hab, if_neg hba] at h1
        by_cases hbc : b.toNat < c.toNat
        · rw [if_pos (show a.toNat < c.toNat by omega)]
        · by_cases hcb : c.toNat < b.toNat
          · rw [if_neg hbc, if_pos hcb] at h2
            exact absurd h2 (by simp)
          · rw [if_neg hbc, if_neg hcb] at h2
            rw [if_neg (show ¬ a.toNat < c.toNat by omega),
                if_neg (show ¬ c.toNat < a.toNat by omega)]
            exact fnLeb_trans as bs cs h1 h2

theorem strLe_refl (a : String) : strLe a a := fnLeb_refl a.data

theorem strLe_total (a b : String) : strLe a b ∨ strLe b a := fnLeb_total a.data b.data

theorem strLe_trans {a b c : String} (h1 : strLe a b) (h2 : strLe b c) : strLe a c :=
  fnLeb_trans a.data b.data c.data h1 h2

theorem getLastD_mem {α : Type} : ∀ (l : List α) (d : α), l ≠ [] → l.getLastD d ∈ l
  | [a], _, _ => List.mem_singleton.mpr rfl
  | a :: b :: t, d, _ => by
    have ih := getLastD_mem (b :: t) a (by simp)
    simp only [List.getLastD_cons] at ih ⊢
    exact List.mem_cons_of_mem a ih

theorem sorted_strLe_getLastD :
    ∀ (l : List String) (d : String), l.Sorted strLe → ∀ x ∈ l, strLe x (l.getLastD d)
  | [], _, _, x, hx => absurd hx (List.not_mem_nil x)
  | a :: t, d, hs, x, hx => by
    rw [List.sorted_cons] at hs
    rcases List.mem_cons.mp hx with rfl | hxt
    · cases t with
      | nil => exact strLe_refl x
      | cons b t2 =>
        simpa only [List.getLastD_cons] using
          hs.1 _ (getLastD_mem (b :: t2) x (by simp))
    · cases t with
      | nil => exact absurd hxt (List.not_mem_nil x)
      | cons b t2 =>
        simpa only [List.getLastD_cons] using
          sorted_strLe_getLastD (b :: t2) a hs.2 x hxt

theorem sortStrings_sorted (l : List String) : (sortStrings l).Sorted strLe := by
  haveI : IsTotal String strLe := ⟨strLe_total⟩
  haveI : IsTrans String strLe := ⟨fun a b c => strLe_trans⟩
  exact List.sorted_insertionSort strLe l

theorem sortStrings_mem (l : List String) (x : String) : x ∈ sortStrings l ↔ x ∈ l :=
  (List.perm_insertionSort strLe l).mem_iff

/-- Claim C8: the cube channel-axis extent is the channel number extracted
from the last entry of the lexicographically sorted file list, that entry is
lexicographically greatest among the discovered files, and the NAXIS3 card
written into the cube header equals exactly that extracted value. -/
theorem c8_channel_axis (conf : BuildConf) (h : conf.files ≠ []) :
    zdimOf conf = conf.extract ((sortedFiles conf).getLastD "") ∧
    (∀ f ∈ conf.files, strLe f ((sortedFiles conf).getLastD "")) ∧
    ((sortedFiles conf).getLastD "") ∈ conf.files ∧
    cubeHeaderOf conf "NAXIS3" = HVal.intV (zdimOf conf) := by
  have hne : sortedFiles conf ≠ [] := by
    intro hc
    apply h
    have hlen := (List.perm_insertionSort strLe conf.files).length_eq
    rw [show List.insertionSort strLe conf.files = sortedFiles conf from rfl, hc] at hlen
    exact List.eq_nil_of_length_eq_zero (by simpa using hlen.symm)
  refine ⟨rfl, ?_, ?_, ?_⟩
  · intro f hf
    exact sorted_strLe_getLastD (sortedFiles conf) "" (sortStrings_sorted conf.files) f
      ((sortStrings_mem conf.files f).mpr hf)
  · exact (sortStrings_mem conf.files _).mp (getLastD_mem _ "" hne)
  · simp [cubeHeaderOf, buildCubeHeader, hset]

/-- Claim C9, counterexample: with a reference header whose NAXIS4 card holds
1, building the cube header changes the NAXIS4 card to 4, so a field other
than the object label, channel-axis length and channel-axis type does not
pass through unchanged. -/
theorem c9_counterexample :
    buildCubeHeader sampleTemplate "F" 7 9 5 "NAXIS4" = HVal.intV 4 ∧
    sampleTemplate "NAXIS4" = HVal.intV 1 ∧
    buildCubeHeader sampleTemplate "F" 7 9 5 "NAXIS4" ≠ sampleTemplate "NAXIS4" := by
  refine ⟨?_, ?_, ?_⟩ <;> simp [buildCubeHeader, hset, sampleTemplate, wdim]

/-- Claim C9, amended: building the cube header overwrites the object label,
the channel-axis length NAXIS3 and the channel-axis type CTYPE3, and
additionally assigns the four axis-length cards NAXIS1, NAXIS2, NAXIS3,
NAXIS4 from the derived cube dimensions (so NAXIS1, NAXIS2 and NAXIS4 are
also written); every header field other than these six passes through with
its value unchanged. -/
theorem c9_header_overwrites (template : Header) (fieldnames : String)
    (x y z : ℕ) (key : String)
    (h : key ∉ ["OBJECT", "NAXIS3", "CTYPE3", "NAXIS1", "NAXIS2", "NAXIS4"]) :
    buildCubeHeader template fieldnames x y z key = template key ∧
    buildCubeHeader template fieldnames x y z "OBJECT" = HVal.strV fieldnames ∧
    buildCubeHeader template fieldnames x y z "NAXIS3" = HVal.intV z ∧
    buildCubeHeader template fieldnames x y z "CTYPE3" = HVal.pairV "FREQ" "" ∧
    buildCubeHeader template fieldnames x y z "NAXIS1" = HVal.intV x ∧
    buildCubeHeader template fieldnames x y z "NAXIS2" = HVal.intV y ∧
    buildCubeHeader template fieldnames x y z "NAXIS4" = HVal.intV 4 := by
  simp only [List.mem_cons, not_or] at h
  obtain ⟨h1, h2, h3, h4, h5, h6, -⟩ := h
  refine ⟨?_, ?_, ?_, ?_, ?_, ?_, ?_⟩ <;>
    simp [buildCubeHeader, hset, wdim, h1, h2, h3, h4, h5, h6]

/-- Claim C9, witness for the amended theorem at a concrete header and the
keyword CRVAL3, which passes through unchanged. -/
theorem c9_header_overwrites_witness :
    buildCubeHeader sampleTemplate "F" 7 9 5 "CRVAL3" = sampleTemplate "CRVAL3" ∧
    buildCubeHeader sampleTemplate "F" 7 9 5 "OBJECT" = HVal.strV "F" ∧
    buildCubeHeader sampleTemplate "F" 7 9 5 "NAXIS3" = HVal.intV 5 ∧
    buildCubeHeader sampleTemplate "F" 7 9 5 "CTYPE3" = HVal.pairV "FREQ" "" ∧
    buildCubeHeader sampleTemplate "F" 7 9 5 "NAXIS1" = HVal.intV 7 ∧
    buildCubeHeader sampleTemplate "F" 7 9 5 "NAXIS2" = HVal.intV 9 ∧
    buildCubeHeader sampleTemplate "F" 7 9 5 "NAXIS4" = HVal.intV 4 :=
  c9_header_overwrites sampleTemplate "F" 7 9 5 "CRVAL3" (by decide)

/-- Claim C8, witness at a concrete two-file catalog. -/
theorem c8_channel_axis_witness :
    zdimOf confW = confW.extract ((sortedFiles confW).getLastD "") ∧
    (∀ f ∈ confW.files, strLe f ((sortedFiles confW).getLastD "")) ∧
    ((sortedFiles confW).getLastD "") ∈ confW.files ∧
    cubeHeaderOf confW "NAXIS3" = HVal.intV (zdimOf confW) :=
  c8_channel_axis confW (by decide)

theorem foldl_efAdd_none : ∀ l : List EF, l.foldl efAdd none = none
  | [] => rfl
  | x :: xs => by
    have : efAdd none x = none := by cases x <;> rfl
    simp only [List.foldl_cons, this, foldl_efAdd_none xs]

theorem npsum_none_of_mem {l : List EF} (h : none ∈ l) : npsum l = none := by
  induction l with
  | nil => exact absurd h (List.not_mem_nil none)
  | cons x xs ih =>
    rcases List.mem_cons.mp h with rfl | hxs
    · simp only [npsum, List.foldl_cons]
      have : efAdd (some 0) none = none := rfl
      rw [this]
      exact foldl_efAdd_none xs
    · cases x with
      | none =>
        simp only [npsum, List.foldl_cons]
        have : efAdd (some 0) none = none := rfl
        rw [this]
        exact foldl_efAdd_none xs
      | some q =>
        have hq := ih hxs
        simp only [npsum, List.foldl_cons] at hq ⊢
        have hstep : efAdd (some 0) (some q) = some (0 + q) := rfl
        rw [hstep]
        have swap : ∀ (ys : List EF) (a b : ℚ),
            ys.foldl efAdd (some a) = none → ys.foldl efAdd (some b) = none := by
          intro ys
          induction ys with
          | nil => intro a b hab; cases hab
          | cons y ys ihy =>
            intro a b hab
            cases y with
            | none =>
              simp only [List.foldl_cons] at hab ⊢
              have : ∀ z : ℚ, efAdd (some z) none = none := fun z => rfl
              rw [this] at hab ⊢
              exact hab
            | some r =>
              simp only [List.foldl_cons] at hab ⊢
              exact ihy (a + r) (b + r) hab
        exact swap xs (0 + q) (0 + q) (swap xs 0 (0 + q) hq)

theorem containsNaN_mem {l : List EF} (h : containsNaN l = true) : none ∈ l := by
  simp only [containsNaN, List.any_eq_true, decide_eq_true_eq] at h
  obtain ⟨x, hx, rfl⟩ := h
  exact hx

theorem stokesVflag_of_nan_or_zero (v : List (List EF))
    (h : containsNaN (flat v) = true ∨ get_std_via_mad v = some 0) :
    stokesVflagOf v = true := by
  cases hg : qualityGateFlag (get_std_via_mad v) with
  | true => simp [stokesVflagOf, check_rms, hg, checkedIsNaNSum]
  | false =>
    rcases h with hnan | hzero
    · have hsum : npsum (flat v) = none := npsum_none_of_mem (containsNaN_mem hnan)
      simp [stokesVflagOf, check_rms, hg, checkedIsNaNSum, hsum]
    · rw [hzero] at hg
      have : qualityGateFlag (some 0) = true := by norm_num [qualityGateFlag]
      rw [this] at hg
      cases hg

/-- Claim C10: a channel whose file opens is flagged whenever its Stokes V
plane holds a NaN entry or its noise estimate is exactly 0, even when the
estimate is not below the 1e6 threshold: the flag switch is set and all four
polarization slabs of the channel are written as NaN. -/
theorem c10_degenerate_flag (c : ChanInput) (hopen : c.canOpen = true)
    (hw : c.writeVOk = true)
    (h : containsNaN (flat c.stokesV) = true ∨ get_std_via_mad c.stokesV = some 0) :
    stokesVflagOf c.stokesV = true ∧
    (chanResult c).cube (0, c.idx) = SlabVal.nanFill ∧
    (chanResult c).cube (1, c.idx) = SlabVal.nanFill ∧
    (chanResult c).cube (2, c.idx) = SlabVal.nanFill ∧
    (chanResult c).cube (3, c.idx) = SlabVal.nanFill := by
  have hflag := stokesVflag_of_nan_or_zero c.stokesV h
  refine ⟨hflag, ?_, ?_, ?_, ?_⟩ <;>
    simp [chanResult, processChannel, hopen, hw, hflag, flagBranch, writeSlab]

/-- Claim C10, witness: a channel whose Stokes V plane holds a NaN while its
noise estimate 2.9652e6 is above the threshold is still flagged. -/
theorem c10_degenerate_flag_witness :
    stokesVflagOf cNanW.stokesV = true ∧
    (chanResult cNanW).cube (0, cNanW.idx) = SlabVal.nanFill ∧
    (chanResult cNanW).cube (1, cNanW.idx) = SlabVal.nanFill ∧
    (chanResult cNanW).cube (2, cNanW.idx) = SlabVal.nanFill ∧
    (chanResult cNanW).cube (3, cNanW.idx) = SlabVal.nanFill :=
  c10_degenerate_flag cNanW rfl rfl (Or.inl (by decide))

/-- Claim C6: a channel whose decision is Flag, whether from the Stokes V
gate or from an unopenable source file, has all four polarization slabs
written as NaN and its Stokes I noise and peak ledger entries recorded as
NaN; an accepted channel has its four polarization slabs copied from the
source planes and its Stokes I noise and peak computed. -/
theorem c6_flag_cascade (c : ChanInput) (hw : c.writeVOk = true) :
    (chanFlagged c = true →
      (chanResult c).cube (0, c.idx) = SlabVal.nanFill ∧
      (chanResult c).cube (1, c.idx) = SlabVal.nanFill ∧
      (chanResult c).cube (2, c.idx) = SlabVal.nanFill ∧
      (chanResult c).cube (3, c.idx) = SlabVal.nanFill ∧
      (chanResult c).rmsI = [none] ∧
      (chanResult c).maxI = [none]) ∧
    (chanFlagged c = false →
      (chanResult c).cube (0, c.idx) = SlabVal.arr c.stokesI ∧
      (chanResult c).cube (1, c.idx) = SlabVal.arr c.stokesQ ∧
      (chanResult c).cube (2, c.idx) = SlabVal.arr c.stokesU ∧
      (chanResult c).cube (3, c.idx) = SlabVal.arr c.stokesV ∧
      (chanResult c).rmsI = [get_std_via_mad c.stokesI] ∧
      (chanResult c).maxI = [npmax (flat c.stokesI)]) := by
  cases hopen : c.canOpen with
  | false =>
    constructor
    · intro _
      simp [chanResult, processChannel, hopen, flagBranch, writeSlab, initState]
    · intro hcontra
      rw [chanFlagged, hopen] at hcontra
      cases hcontra
  | true =>
    cases hflag : stokesVflagOf c.stokesV with
    | true =>
      constructor
      · intro _
        simp [chanResult, processChannel, hopen, hw, hflag, flagBranch, writeSlab,
          initState]
      · intro hcontra
        rw [chanFlagged, hopen] at hcontra
        simp only [if_true] at hcontra
        rw [hflag] at hcontra
        cases hcontra
    | false =>
      have hgate : qualityGateFlag (get_std_via_mad c.stokesV) = false := by
        cases hg : qualityGateFlag (get_std_via_mad c.stokesV) with
        | false => rfl
        | true =>
          have : stokesVflagOf c.stokesV = true := by
            simp [stokesVflagOf, check_rms, hg, checkedIsNaNSum]
          rw [this] at hflag
          cases hflag
      constructor
      · intro hcontra
        rw [chanFlagged, hopen] at hcontra
        simp only [if_true] at hcontra
        rw [hflag] at hcontra
        cases hcontra
      · intro _
        simp [chanResult, processChannel, hopen, hw, hflag, acceptBranch, writeSlab,
          initState, check_rms, hgate, slabOfChecked]

/-- Claim C6, witness: the gate-flagged channel cFlagW lands on the NaN
branch, the accepted channel cAccW has its planes copied and statistics
computed. -/
theorem c6_flag_cascade_witness :
    ((chanResult cFlagW).cube (0, cFlagW.idx) = SlabVal.nanFill ∧
     (chanResult cFlagW).cube (1, cFlagW.idx) = SlabVal.nanFill ∧
     (chanResult cFlagW).cube (2, cFlagW.idx) = SlabVal.nanFill ∧
     (chanResult cFlagW).cube (3, cFlagW.idx) = SlabVal.nanFill ∧
     (chanResult cFlagW).rmsI = [none] ∧
     (chanResult cFlagW).maxI = [none]) ∧
    ((chanResult cAccW).cube (0, cAccW.idx) = SlabVal.arr cAccW.stokesI ∧
     (chanResult cAccW).cube (1, cAccW.idx) = SlabVal.arr cAccW.stokesQ ∧
     (chanResult cAccW).cube (2, cAccW.idx) = SlabVal.arr cAccW.stokesU ∧
     (chanResult cAccW).cube (3, cAccW.idx) = SlabVal.arr cAccW.stokesV ∧
     (chanResult cAccW).rmsI = [get_std_via_mad cAccW.stokesI] ∧
     (chanResult cAccW).maxI = [npmax (flat cAccW.stokesI)]) :=
  by
  refine ⟨(c6_flag_cascade cFlagW rfl).1 ?_, (c6_flag_cascade cAccW rfl).2 ?_⟩
  · norm_num [chanFlagged, cFlagW, stokesVflagOf, check_rms, qualityGateFlag,
      checkedIsNaNSum, get_std_via_mad, get_mad, nanmedianList, medianOfSorted,
      sortQ, flat, efMul, efAbsSub, madScale, npsum, efAdd, vConst,
      List.insertionSort, List.orderedInsert]
  · norm_num [chanFlagged, cAccW, stokesVflagOf, check_rms, qualityGateFlag,
      checkedIsNaNSum, get_std_via_mad, get_mad, nanmedianList, medianOfSorted,
      sortQ, flat, efMul, efAbsSub, madScale, npsum, efAdd, vTwo,
      List.insertionSort, List.orderedInsert]
    all_goals decide

theorem check_rms_eval :
    check_rms [[some 0, some 2000000]] = (some [[some 0, some 2000000]], some 1482600) := by
  norm_num [check_rms, qualityGateFlag, get_std_via_mad, get_mad, nanmedianList,
    medianOfSorted, sortQ, flat, efMul, efAbsSub, madScale,
    List.insertionSort, List.orderedInsert]

theorem gate_accepts_eval : stokesVflagOf [[some 0, some 2000000]] = false := by
  norm_num [stokesVflagOf, check_rms_eval, checkedIsNaNSum, npsum, efAdd, flat]
  exact fun h => Option.noConfusion h

theorem stdI_eval : get_std_via_mad [[some 1]] = some 0 := by
  norm_num [get_std_via_mad, get_mad, nanmedianList, medianOfSorted, sortQ, flat,
    efMul, efAbsSub, madScale, List.insertionSort, List.orderedInsert]

theorem npmax_eval : npmax (flat [[some 1]]) = some 1 := rfl

set_option maxHeartbeats 1000000 in
/-- Claim C3, code behaviour at a failing slab write: when the in-try write
of the Stokes V slab raises an I/O error on the already-allocated cube
(cWriteFailW), the bare except converts the failure into a per-channel flag
decision - the channel ends flagged with NaN slabs and an extra NaN rmsV
ledger entry - and the run continues: the next channel cGoodW is processed
and accepted normally.  The failure is not fatal for the run, contrary to
the claim. -/
theorem c3_slab_write_failure_swallowed :
    (processAll [cWriteFailW, cGoodW]).chanNo = [0, 1] ∧
    (processAll [cWriteFailW, cGoodW]).cube (3, 0) = SlabVal.nanFill ∧
    (processAll [cWriteFailW, cGoodW]).cube (0, 0) = SlabVal.nanFill ∧
    (processAll [cWriteFailW, cGoodW]).cube (0, 1) = SlabVal.arr [[some 1]] ∧
    (processAll [cWriteFailW, cGoodW]).rmsI = [none, some 0] ∧
    (processAll [cWriteFailW, cGoodW]).maxI = [none, some 1] ∧
    (processAll [cWriteFailW, cGoodW]).rmsV = [some 1482600, none, some 1482600] := by
  simp only [processAll, List.foldl_cons, List.foldl_nil]
  norm_num [processChannel, cWriteFailW, cGoodW, flagBranch, acceptBranch,
    writeSlab, initState, check_rms_eval, gate_accepts_eval, stdI_eval, npmax_eval,
    slabOfChecked, vTwo, Prod.mk.injEq, -Prod.mk_zero_zero]

set_option maxHeartbeats 1000000 in
/-- Claim C1, code behaviour with an unopenable channel file: processing
[cMissW, cOpenW] flags the missing channel and continues, but the except
branch never appends a frequency entry, so the freq column has one entry
while every other column has two; the single row that can be built is the
missing channel's row carrying the NEXT channel's frequency (1400 MHz), the
second row's frequency lookup is out of bounds (IndexError), and the
statistics table is never produced. -/
theorem c1_missing_channel_breaks_statistics :
    (processAll [cMissW, cOpenW]).chanNo = [0, 1] ∧
    (processAll [cMissW, cOpenW]).freq = [1400000000] ∧
    (processAll [cMissW, cOpenW]).rmsI.length = 2 ∧
    statsRow (processAll [cMissW, cOpenW]) 0 = some (0, 1400, none, none, none) ∧
    statsRow (processAll [cMissW, cOpenW]) 1 = none ∧
    writeStatistics (processAll [cMissW, cOpenW]) = none := by
  have hstate : processAll [cMissW, cOpenW] =
      processChannel (processChannel initState cMissW) cOpenW := rfl
  have hV : get_std_via_mad vTwo = some 1482600 := by
    have := check_rms_eval
    norm_num [check_rms, qualityGateFlag, get_std_via_mad, get_mad, nanmedianList,
      medianOfSorted, sortQ, flat, efMul, efAbsSub, madScale,
      List.insertionSort, List.orderedInsert, vTwo]
  simp only [hstate]
  norm_num [processChannel, cMissW, cOpenW, flagBranch, acceptBranch,
    writeSlab, initState, check_rms_eval, gate_accepts_eval, slabOfChecked, vTwo,
    statsRow, writeStatistics, collectRows, scaleRound, round4, round_eq,
    List.get?, npmax, flat, get_std_via_mad, get_mad, nanmedianList, medianOfSorted,
    sortQ, efMul, efAbsSub, madScale, List.insertionSort, List.orderedInsert]

end Frocc
